import Mathlib

set_option maxRecDepth 8000

/-! Verification of the dxr XML-RPC client core: a shallow embedding of
`src/dxr_client/src/reqwest_support.rs` (client call pipeline, response
resolution, local-socket transport framing, multicall decoding) together with
spec-modelled pieces of the `dxr` value codec whose sources are not in the
repository snapshot (only their tests and callers are). -/

/-- Characters of a Rust string; UTF-8 text is modelled at the character level. -/
abbrev Str := List Char

/-- Modelled from the spec: the XML-RPC `Value` data model (spec section 3) of the
`dxr` crate, whose definition is not under `src/` (its tests in `src/src/tests.rs`
and the client in `src/dxr_client` are). The closed variant set follows the spec;
the `double` payload is carried as an abstract bit pattern and the timestamp as
whole seconds, which no claim exercises. -/
inductive Value where
  | i4 (n : Int)
  | i8 (n : Int)
  | boolean (b : Bool)
  | string (s : Str)
  | double (bits : Nat)
  | datetime (seconds : Int)
  | base64 (bytes : List Nat)
  | struct (members : List (Str × Value))
  | array (elements : List Value)
  | nil

/-- An XML-RPC struct's member list: (name, value) pairs in encounter order. -/
abbrev Members := List (Str × Value)

/-- XML-RPC fault: a numeric code and a message string (spec section 3). -/
structure Fault where
  code : Int
  msg : Str

/-- The `dxr` decode-error kind, restricted to the constructors the client code
uses: `DxrError::invalid_data` and `DxrError::missing_field` (plus a wrong-type
kind standing for the remaining conversion failures). -/
inductive DxrError where
  | invalidData (content : Str)
  | missingField (typeName field : Str)
  | wrongType (info : Str)

/-- Error type for XML-RPC clients, from `reqwest_support.rs` lines 30-53:
Fault (server fault), RPC (parsing error), Net (networking error; the wrapped
`reqwest::Error` is carried as its message text). -/
inductive ClientError where
  | fault (f : Fault)
  | rpc (e : DxrError)
  | net (e : Str)

/-- `MethodResponse` wraps exactly one `Value`, accessed by `.inner()`. -/
structure MethodResponse where
  inner : Value

/-- `FaultResponse` wraps the value carried inside the `<fault>` element. -/
structure FaultResponse where
  value : Value

/-! ### String constants appearing in the source -/

def xmlMarker : Str := "<?xml".data

def faultCodeKey : Str := "faultCode".data

def faultStringKey : Str := "faultString".data

def faultTypeName : Str := "Fault".data

def unixScheme : Str := "unix".data

def connectFailMsg : Str := "Failed to connect to rtorrent socket".data

def errWaitLabel : Str := "Error when waiting for response: ".data

/-! ### Rust `str::split` on a substring needle

`send_scgi_request` calls `s.split("<?xml").collect::<Vec<&str>>()`.  Rust's
`split` with a nonempty string pattern cuts at the non-overlapping, leftmost
occurrences of the pattern; a text with k matches yields k+1 pieces.  The
function is defined with an explicit fuel argument (initialised with the text
length, which always suffices) so that it is structurally recursive and
kernel-reducible; the `!pat.isEmpty` guard is vacuous for the nonempty marker
used by the client and only serves the fuel bound. -/
def rustSplitF (pat : Str) : Nat → Str → List Str
  | _, [] => [[]]
  | 0, c :: rest => [c :: rest]
  | fuel + 1, c :: rest =>
    if pat.isPrefixOf (c :: rest) && !pat.isEmpty then
      [] :: rustSplitF pat fuel ((c :: rest).drop pat.length)
    else
      match rustSplitF pat fuel rest with
      | [] => [c :: rest]
      | s :: ss => (c :: s) :: ss

/-- Rust `text.split(pat).collect::<Vec<_>>()` for a nonempty needle. -/
def rustSplit (pat text : Str) : List Str := rustSplitF pat text.length text

/-- Decidable scan for an occurrence of `pat` as a contiguous substring. -/
def hasMatch (pat : Str) : Str → Bool
  | [] => pat.isEmpty
  | c :: rest => pat.isPrefixOf (c :: rest) || hasMatch pat rest

/-- The per-frame text handling of `send_scgi_request` (`reqwest_support.rs`
lines 223-233): split the frame text on the `<?xml` prologue marker, index the
resulting vector at `[1]` (an out-of-bounds panic when the marker is absent,
modelled as `none`), re-prepend the marker, and append the result to the
accumulated response. -/
def processFrame (resp frame : Str) : Option Str :=
  match (rustSplit xmlMarker frame)[1]? with
  | none => none
  | some s2 => some (resp ++ (xmlMarker ++ s2))

/-! ### The SCGI response-reading loop -/

/-- One observable event of the framed unix-socket stream inside
`send_scgi_request`: `framed.next()` yields nothing yet (`pollNone`), an error
(`pollErr`), a zero-length frame (`frameEmpty`), a nonempty frame whose bytes
decode to UTF-8 text (`frameText`), or a nonempty frame that is discarded
(`frameSkip`, covering the invalid-UTF-8 branch and the two inner
`SCGICodec::decode` skip branches, all of which only log and continue). -/
inductive ScgiEvent where
  | pollNone
  | pollErr (msg : Str)
  | frameEmpty
  | frameText (text : Str)
  | frameSkip

/-- Outcome of running the frame loop over a finite prefix of stream events:
normal return (`ok`), early error return (`err`), an unhandled abort from the
out-of-bounds indexing (`panicked`), or still looping with accumulated text
`resp` after all listed events were consumed (`pending`). -/
inductive SendOutcome where
  | ok (resp : Str)
  | err (msg : Str)
  | panicked
  | pending (resp : Str)

/-- The io::Error message built in the `Some(Err(e))` branch (line 209-212). -/
def errWaitMsg (m : Str) : Str := errWaitLabel ++ m

/-- The `loop` of `send_scgi_request` (lines 198-258), as a function of the
accumulated response text and the finite list of stream events processed so
far.  `pollNone` and discarded frames only continue the loop; a zero-length
frame breaks with success; a read error returns early; a text frame goes
through `processFrame`, whose `none` result is the indexing panic. -/
def scgiLoop (resp : Str) : List ScgiEvent → SendOutcome
  | [] => .pending resp
  | .pollNone :: rest => scgiLoop resp rest
  | .pollErr m :: _ => .err (errWaitMsg m)
  | .frameEmpty :: _ => .ok resp
  | .frameSkip :: rest => scgiLoop resp rest
  | .frameText t :: rest =>
    match processFrame resp t with
    | none => .panicked
    | some resp2 => scgiLoop resp2 rest

/-- `send_scgi_request` (lines 185-261): connect to the socket and send the
request (both failure sources collapsed into the `connect` argument, since
either `?` returns the io error), then run the frame loop with an empty
accumulated response. -/
def send_scgi_request (connect : Except Str Unit) (events : List ScgiEvent) : SendOutcome :=
  match connect with
  | .error m => .err m
  | .ok _ => scgiLoop [] events

/-! ### Fault extraction and response resolution -/

/-- Look up a member by name the way a `HashMap` collected from the member list
would: when names repeat, the later member wins. -/
def lookupLast (k : Str) : Members → Option Value
  | [] => none
  | (n, v) :: rest =>
    match lookupLast k rest with
    | some w => some w
    | none => if n = k then some v else none

/-- Modelled from the spec: `Fault::try_from(FaultResponse)` of the `dxr` crate
(not under `src/`): the wrapped value must be a struct exposing required
members `faultCode` (integer) and `faultString` (string); extra members are
ignored, not rejected; a violated requirement yields a decode error. -/
def faultTryFrom (fr : FaultResponse) : Except DxrError Fault :=
  match fr.value with
  | .struct ms =>
    match lookupLast faultCodeKey ms with
    | none => .error (.missingField faultTypeName faultCodeKey)
    | some c =>
      match lookupLast faultStringKey ms with
      | none => .error (.missingField faultTypeName faultStringKey)
      | some s =>
        match c, s with
        | .i4 n, .string m => .ok ⟨n, m⟩
        | _, _ => .error (.wrongType faultTypeName)
  | _ => .error (.wrongType faultTypeName)

/-- The two `dxr::deserialize_xml` instantiations used by `response_to_result`,
kept abstract: parsing the raw text as a `FaultResponse` and as a
`MethodResponse`.  The resolution algorithm is quantified over them. -/
structure Codec where
  parseFault : Str → Except DxrError FaultResponse
  parseResponse : Str → Except DxrError MethodResponse

/-- Result of the successful-fault-parse branch of `response_to_result`:
the contained Fault, or the decode error from a malformed fault. -/
def faultBranch (fr : FaultResponse) : Except ClientError MethodResponse :=
  match faultTryFrom fr with
  | .ok f => .error (.fault f)
  | .error e => .error (.rpc e)

/-- `response_to_result` (`reqwest_support.rs` lines 332-360): first try to
parse the contents as a `FaultResponse` and return its Fault (or decode error)
immediately on success; only on failure try `MethodResponse`; if both fail,
return one `DxrError::invalid_data` carrying the original text (the two parse
failures are only logged). -/
def response_to_result (cod : Codec) (contents : Str) : Except ClientError MethodResponse :=
  match cod.parseFault contents with
  | .ok fr => faultBranch fr
  | .error _e2 =>
    match cod.parseResponse contents with
    | .ok response => .ok response
    | .error _e1 => .error (.rpc (DxrError.invalidData contents))

/-! ### The client `call` pipeline -/

/-- The external collaborators of one `Client::call` invocation: the endpoint
scheme, the serialization result (`call.as_xml_rpc()` chained with
`request_to_body`, both fallible with a `DxrError`), the unix-transport
connect/send step and its stream events, the HTTP transport result
(build/execute/text failures collapsed into one `reqwest::Error` message), the
response codec, and the `R::try_from_value` extraction. -/
structure CallEnv (R : Type) where
  scheme : Str
  serialized : Except DxrError Str
  connect : Except Str Unit
  events : List ScgiEvent
  httpResult : Except Str Str
  codec : Codec
  extract : Value → Except DxrError R

/-- Everything one invocation of `Client::call` can do: return one of the four
caller-visible outcomes, abort with a panic, or never terminate. -/
inductive CallOutcome (R : Type) where
  | success (r : R)
  | fault (f : Fault)
  | rpc (e : DxrError)
  | net (e : Str)
  | panicked
  | hangs

/-- Recognizer for the Net outcome. -/
def CallOutcome.isNet {R : Type} : CallOutcome R → Bool
  | .net _ => true
  | _ => false

/-- The tail of `Client::call` (lines 268-273): resolve the raw response text,
surface a resolved Fault as a Fault error and a resolution failure as an RPC
error, then extract the wrapped value into the caller's type (an extraction
failure is an RPC error too). -/
def resolveAndExtract {R : Type} (env : CallEnv R) (contents : Str) : CallOutcome R :=
  match response_to_result env.codec contents with
  | .error (.fault f) => .fault f
  | .error (.rpc e) => .rpc e
  | .error (.net e) => .net e
  | .ok response =>
    match env.extract response.inner with
    | .ok r => .success r
    | .error e => .rpc e

/-- `Client::call` (`reqwest_support.rs` lines 135-274): serialize (a failure
is an RPC error), dispatch on the URL scheme; on the `unix` scheme run the
SCGI exchange and map any returned error onto
`Fault(1, "Failed to connect to rtorrent socket")`; on any other scheme run
the HTTP exchange and map its failure onto a Net error; then resolve. -/
def call {R : Type} (env : CallEnv R) : CallOutcome R :=
  match env.serialized with
  | .error e => .rpc e
  | .ok _body =>
    if env.scheme = unixScheme then
      match send_scgi_request env.connect env.events with
      | .err _ => .fault ⟨1, connectFailMsg⟩
      | .panicked => .panicked
      | .pending _ => .hangs
      | .ok contents => resolveAndExtract env contents
    else
      match env.httpResult with
      | .error e => .net e
      | .ok contents => resolveAndExtract env contents

/-! ### Multicall decoding -/

/-- Modelled from the spec: `<(Value,)>::try_from_value` of the `dxr` crate
(not under `src/`): succeeds exactly on a one-element positional sequence,
yielding the single value. -/
def tryFromValueSingle (v : Value) : Except DxrError Value :=
  match v with
  | .array [x] => .ok x
  | _ => .error (.wrongType ("tuple".data))

/-- Modelled from the spec: `<HashMap<String, Value>>::try_from_value` of the
`dxr` crate (not under `src/`): succeeds exactly on a struct, yielding its
members. -/
def tryFromValueMap (v : Value) : Except DxrError Members :=
  match v with
  | .struct ms => .ok ms
  | _ => .error (.wrongType ("map".data))

/-- Modelled from the spec: `i32::try_from_value` of the `dxr` crate (not
under `src/`): succeeds exactly on the 32-bit integer variant. -/
def i32TryFromValue (v : Value) : Except DxrError Int :=
  match v with
  | .i4 n => .ok n
  | _ => .error (.wrongType ("i32".data))

/-- Modelled from the spec: `String::try_from_value` of the `dxr` crate (not
under `src/`): succeeds exactly on the string variant. -/
def stringTryFromValue (v : Value) : Except DxrError Str :=
  match v with
  | .string s => .ok s
  | _ => .error (.wrongType ("String".data))

/-- One iteration of the `for result in response` loop of `Client::multicall`
(lines 287-313): push a success outcome if the element is a one-element
sequence; then, if it is a struct, require `faultCode` and `faultString`
(returning a missing-field error otherwise, aborting the whole decode),
convert them (conversion failures also abort), and push a failure outcome. -/
def multicallStep (acc : List (Except Fault Value)) (result : Value) :
    Except ClientError (List (Except Fault Value)) :=
  let acc1 :=
    match tryFromValueSingle result with
    | .ok value => acc ++ [Except.ok value]
    | .error _ => acc
  match tryFromValueMap result with
  | .error _ => .ok acc1
  | .ok ms =>
    match lookupLast faultCodeKey ms with
    | none => .error (.rpc (DxrError.missingField faultTypeName faultCodeKey))
    | some code =>
      match lookupLast faultStringKey ms with
      | none => .error (.rpc (DxrError.missingField faultTypeName faultStringKey))
      | some s =>
        match i32TryFromValue code with
        | .error e => .error (.rpc e)
        | .ok c =>
          match stringTryFromValue s with
          | .error e => .error (.rpc e)
          | .ok m => .ok (acc1 ++ [Except.error (Fault.mk c m)])

/-- The whole loop of `Client::multicall`, threading the results vector. -/
def multicallLoop (acc : List (Except Fault Value)) :
    List Value → Except ClientError (List (Except Fault Value))
  | [] => .ok acc
  | r :: rest =>
    match multicallStep acc r with
    | .error e => .error e
    | .ok acc2 => multicallLoop acc2 rest

/-- The decoding phase of `Client::multicall` (lines 280-316), applied to the
already-resolved response array. -/
def multicall (response : List Value) : Except ClientError (List (Except Fault Value)) :=
  multicallLoop [] response

/-- The per-element outcome relation claimed by the spec for well-shaped
multicall elements: a one-element positional sequence yields a success outcome
with its single value; a struct exposing an integer `faultCode` and a string
`faultString` (any other members ignored) yields a failure outcome with the
corresponding Fault. -/
inductive ElemOutcome : Value → Except Fault Value → Prop
  | success (v : Value) : ElemOutcome (Value.array [v]) (Except.ok v)
  | failure (ms : Members) (code : Int) (msg : Str)
      (hc : lookupLast faultCodeKey ms = some (Value.i4 code))
      (hs : lookupLast faultStringKey ms = some (Value.string msg)) :
      ElemOutcome (Value.struct ms) (Except.error (Fault.mk code msg))

/-! ### Decimal numerals -/

/-- The decimal digit string of a natural number, as produced by Rust's
`to_string` (most significant digit first, a single `0` for zero). -/
def natDecimal (n : Nat) : Str :=
  if n = 0 then ['0'] else ((Nat.digits 10 n).reverse.map Nat.digitChar)

/-- The numeric value of a decimal digit character. -/
def digitVal (c : Char) : Option Nat :=
  if '0' ≤ c ∧ c ≤ '9' then some (c.toNat - '0'.toNat) else none

/-- Fold a digit string onto an accumulator; fails on any non-digit. -/
def parseNatDigitsAux (acc : Nat) : Str → Option Nat
  | [] => some acc
  | c :: rest =>
    match digitVal c with
    | some d => parseNatDigitsAux (acc * 10 + d) rest
    | none => none

/-- Parse a nonempty all-digit string as a natural number. -/
def parseNatDigits (s : Str) : Option Nat :=
  if s.isEmpty then none else parseNatDigitsAux 0 s

/-- The decimal rendering of an integer, as produced by Rust's `to_string`. -/
def intDecimal (n : Int) : Str :=
  if n < 0 then '-' :: natDecimal n.natAbs else natDecimal n.natAbs

/-! ### SCGI request payload -/

/-- UTF-8 byte length of a text, Rust's `String::len`. -/
def utf8Len (s : Str) : Nat := (s.map Char.utf8Size).sum

/-- `request_to_body` (lines 319-330) after the fallible `serialize_xml` step
(kept outside, as its oracle input `xml`): join the fixed XML prologue, the
serialized call and an empty piece with newlines. -/
def request_to_body (xml : Str) : Str :=
  List.intercalate ("\n".data) [("<?xml version=\"1.0\"?>".data), xml, []]

/-- The SCGI request value built by the `unix` branch of `Client::call`:
ordered header fields and the raw body bytes. -/
structure SCGIRequestModel where
  headers : List (Str × Str)
  body : Str

/-- The `SCGIRequest::Request` construction of `Client::call` (lines 143-151):
`CONTENT_LENGTH` (decimal byte length of the body), `SCGI=1`,
`REQUEST_METHOD=POST`, `REQUEST_URI=/RPC`, in this order, followed by the raw
body bytes. -/
def build_scgi_request (body : Str) : SCGIRequestModel :=
  { headers :=
      [ (("CONTENT_LENGTH".data), natDecimal (utf8Len body)),
        (("SCGI".data), ("1".data)),
        (("REQUEST_METHOD".data), ("POST".data)),
        (("REQUEST_URI".data), ("/RPC".data)) ],
    body := body }

/-! ### Spec-modelled scalar value codec -/

/-- Split a tag-name segment at the first `>`. -/
def breakAtGt : Str → Option (Str × Str)
  | [] => none
  | c :: rest =>
    if c = '>' then some ([], rest)
    else
      match breakAtGt rest with
      | some (pre, post) => some (c :: pre, post)
      | none => none

/-- The closing tag `</name>`. -/
def closeTag (tag : Str) : Str := '<' :: '/' :: tag ++ ['>']

/-- The element `<name>inner</name>`. -/
def wrapTag (tag inner : Str) : Str := '<' :: tag ++ '>' :: inner ++ closeTag tag

/-- Parse a single non-nested XML element `<name>inner</name>` into its tag
name and inner text. -/
def parseTagged (s : Str) : Option (Str × Str) :=
  match s with
  | '<' :: rest =>
    match breakAtGt rest with
    | some (tag, afterOpen) =>
      if (closeTag tag).isSuffixOf afterOpen then
        some (tag, afterOpen.take (afterOpen.length - (closeTag tag).length))
      else none
    | none => none
  | _ => none

/-- Parse an optional minus sign followed by decimal digits. -/
def parseIntText (s : Str) : Option Int :=
  match s with
  | '-' :: rest => (parseNatDigits rest).map (fun n => -(n : Int))
  | _ => (parseNatDigits s).map (fun n => (n : Int))

/-- Decode the text of a 32-bit integer element, range-checked. -/
def parseI32 (s : Str) : Except DxrError Value :=
  match parseIntText s with
  | some n =>
    if -(2 ^ 31) ≤ n ∧ n < 2 ^ 31 then .ok (.i4 n) else .error (.invalidData s)
  | none => .error (.invalidData s)

/-- Decode the text of a 64-bit integer element, range-checked. -/
def parseI64 (s : Str) : Except DxrError Value :=
  match parseIntText s with
  | some n =>
    if -(2 ^ 63) ≤ n ∧ n < 2 ^ 63 then .ok (.i8 n) else .error (.invalidData s)
  | none => .error (.invalidData s)

/-- Modelled from the spec: the scalar part of the `dxr` value decoder (spec
section 4.1), whose source is not under `src/` (its tests are, in
`src/src/tests.rs`).  Tag dispatch is exact and case-sensitive; the decoder
accepts `int` as an alias of `i4`; `boolean` accepts the literals `1`/`0`
only; any unknown tag collapses to a decode error carrying the fragment.
Compound tags (struct, array) and the remaining scalar tags are outside this
model's scope; no claim exercises them through the decoder. -/
def decodeValue (s : Str) : Except DxrError Value :=
  match parseTagged s with
  | none => .error (DxrError.invalidData s)
  | some (tag, inner) =>
    if tag = ("i4".data) ∨ tag = ("int".data) then parseI32 inner
    else if tag = ("i8".data) then parseI64 inner
    else if tag = ("boolean".data) then
      (if inner = ("1".data) then .ok (.boolean true)
       else if inner = ("0".data) then .ok (.boolean false)
       else .error (.invalidData s))
    else if tag = ("string".data) then .ok (.string inner)
    else .error (.invalidData s)

/-- Modelled from the spec: the scalar part of the `dxr` value encoder (spec
section 4.1): a 32-bit integer always emits the `i4` tag (never `int`), a
64-bit integer emits `i8`, a boolean emits `1`/`0` under `boolean`, a string
emits `string`.  Compound values are outside this model's scope; no claim
exercises them through the encoder. -/
def encodeValue : Value → Str
  | .i4 n => wrapTag ("i4".data) (intDecimal n)
  | .i8 n => wrapTag ("i8".data) (intDecimal n)
  | .boolean b => wrapTag ("boolean".data) (if b then ("1".data) else ("0".data))
  | .string s => wrapTag ("string".data) s
  | _ => []

/-! ### Concrete codecs and call environments used by the claim checks -/

/-- A codec whose two parsers both fail, as on unparseable response text. -/
def codecNone : Codec :=
  ⟨fun s => .error (.invalidData s), fun s => .error (.invalidData s)⟩

/-- A codec whose fault parse succeeds with a well-formed fault struct. -/
def codecFaultOk : Codec :=
  ⟨fun _ => .ok ⟨Value.struct [(faultCodeKey, Value.i4 1),
      (faultStringKey, Value.string ("bad".data))]⟩,
    fun s => .error (.invalidData s)⟩

/-- A codec whose fault parse fails and whose response parse succeeds. -/
def codecRespOk : Codec :=
  ⟨fun s => .error (.invalidData s), fun _ => .ok ⟨Value.i4 5⟩⟩

/-- A baseline unix-scheme call environment with a trivially succeeding
serialization, connection and extraction. -/
def envBase : CallEnv Value :=
  { scheme := unixScheme
    serialized := .ok ("body".data)
    connect := .ok ()
    events := []
    httpResult := .ok []
    codec := codecNone
    extract := fun v => .ok v }

/-- A unix-scheme call whose peer sends one frame without a prologue marker. -/
def envPanic : CallEnv Value :=
  { envBase with events := [.frameText ("hello".data)] }

/-- A unix-scheme call whose socket connection fails. -/
def envConnRefused : CallEnv Value :=
  { envBase with connect := .error ("connection refused".data) }

/-- An http-scheme call whose HTTP exchange fails. -/
def envHttpFail : CallEnv Value :=
  { envBase with scheme := ("http".data), httpResult := .error ("dns failure".data) }

/-! ### Lemmas about the split scan -/

theorem rustSplitF_irrel (pat : Str) :
    ∀ (f1 f2 : Nat) (text : Str), text.length ≤ f1 → text.length ≤ f2 →
      rustSplitF pat f1 text = rustSplitF pat f2 text := by
  intro f1
  induction f1 with
  | zero =>
    intro f2 text h1 _h2
    have htext : text = [] := List.eq_nil_of_length_eq_zero (Nat.le_zero.mp h1)
    subst htext
    cases f2 <;> simp [rustSplitF]
  | succ f ih =>
    intro f2 text h1 h2
    cases text with
    | nil => cases f2 <;> simp [rustSplitF]
    | cons c rest =>
      cases f2 with
      | zero =>
        exfalso
        simp only [List.length_cons] at h2
        omega
      | succ g =>
        simp only [rustSplitF]
        by_cases h : (pat.isPrefixOf (c :: rest) && !pat.isEmpty) = true
        · rw [if_pos h, if_pos h]
          have hne : pat.isEmpty = false := by
            rcases Bool.and_eq_true _ _ |>.mp h with ⟨_, hright⟩
            simpa using hright
          have hlen : 1 ≤ pat.length := by
            cases pat with
            | nil => simp [List.isEmpty] at hne
            | cons _ _ => simp
          have hdrop : ((c :: rest).drop pat.length).length ≤ f := by
            simp only [List.length_drop, List.length_cons]
            simp only [List.length_cons] at h1
            omega
          have hdrop2 : ((c :: rest).drop pat.length).length ≤ g := by
            simp only [List.length_drop, List.length_cons]
            simp only [List.length_cons] at h2
            omega
          rw [ih g ((c :: rest).drop pat.length) hdrop hdrop2]
        · rw [if_neg h, if_neg h]
          have hr1 : rest.length ≤ f := by
            simp only [List.length_cons] at h1; omega
          have hr2 : rest.length ≤ g := by
            simp only [List.length_cons] at h2; omega
          rw [ih g rest hr1 hr2]

theorem rustSplit_pos (pat : Str) (c : Char) (rest : Str)
    (h : pat.isPrefixOf (c :: rest) = true) (hne : pat ≠ []) :
    rustSplit pat (c :: rest) = [] :: rustSplit pat ((c :: rest).drop pat.length) := by
  have hempty : pat.isEmpty = false := by
    cases pat with
    | nil => exact absurd rfl hne
    | cons _ _ => rfl
  have hcond : (pat.isPrefixOf (c :: rest) && !pat.isEmpty) = true := by
    rw [h, hempty]; rfl
  have hlen : 1 ≤ pat.length := by
    cases pat with
    | nil => exact absurd rfl hne
    | cons _ _ => simp
  show rustSplitF pat (c :: rest).length (c :: rest) = _
  simp only [List.length_cons, rustSplitF, hcond, if_true]
  have hdrop : ((c :: rest).drop pat.length).length ≤ rest.length := by
    simp only [List.length_drop, List.length_cons]
    omega
  rw [rustSplitF_irrel pat rest.length ((c :: rest).drop pat.length).length
      ((c :: rest).drop pat.length) hdrop (le_refl _)]
  rfl

theorem rustSplit_neg (pat : Str) (c : Char) (rest : Str)
    (h : (pat.isPrefixOf (c :: rest) && !pat.isEmpty) = false) (s : Str) (ss : List Str)
    (hrec : rustSplit pat rest = s :: ss) :
    rustSplit pat (c :: rest) = (c :: s) :: ss := by
  show rustSplitF pat (c :: rest).length (c :: rest) = _
  simp only [List.length_cons, rustSplitF, h, if_false, Bool.false_eq_true]
  rw [show rustSplitF pat rest.length rest = s :: ss from hrec]

theorem isPrefixOf_append_self : ∀ (u v : Str), u.isPrefixOf (u ++ v) = true := by
  intro u
  induction u with
  | nil => intro v; simp [List.isPrefixOf]
  | cons c u' ih =>
    intro v
    simp only [List.cons_append, List.isPrefixOf, Bool.and_eq_true, beq_self_eq_true,
      true_and]
    exact ih v

theorem isPrefixOf_no_marker (p : Char) :
    ∀ (u a w : Str), (∀ x ∈ u, x ≠ p) → u.isPrefixOf (a ++ p :: w) = true →
      u.isPrefixOf a = true := by
  intro u
  induction u with
  | nil => intro a _ _ _; cases a <;> rfl
  | cons c u' ih =>
    intro a w hfree hpre
    cases a with
    | nil =>
      exfalso
      simp only [List.nil_append, List.isPrefixOf, Bool.and_eq_true, beq_iff_eq] at hpre
      exact (hfree c (by simp)) hpre.1
    | cons b a' =>
      simp only [List.cons_append, List.isPrefixOf, Bool.and_eq_true] at hpre ⊢
      refine ⟨hpre.1, ih a' w (fun x hx => hfree x (by simp [hx])) hpre.2⟩

theorem isPrefixOf_straddle (p : Char) (pt : Str) (hp : p ∉ pt)
    (b : Char) (a' rest : Str)
    (hpre : (p :: pt).isPrefixOf ((b :: a') ++ (p :: pt) ++ rest) = true) :
    (p :: pt).isPrefixOf (b :: a') = true := by
  have hshape : ((b :: a') ++ (p :: pt) ++ rest) = b :: (a' ++ p :: (pt ++ rest)) := by
    simp
  rw [hshape] at hpre
  simp only [List.isPrefixOf, Bool.and_eq_true] at hpre ⊢
  refine ⟨hpre.1, ?_⟩
  exact isPrefixOf_no_marker p pt a' (pt ++ rest)
    (fun x hx => fun hxp => hp (hxp ▸ hx)) hpre.2

theorem rustSplit_skip_clean (p : Char) (pt : Str) (hp : p ∉ pt) :
    ∀ (a rest : Str), hasMatch (p :: pt) a = false →
      rustSplit (p :: pt) (a ++ (p :: pt) ++ rest) = a :: rustSplit (p :: pt) rest := by
  intro a
  induction a with
  | nil =>
    intro rest _
    have hshape : (([] : Str) ++ (p :: pt) ++ rest) = p :: (pt ++ rest) := by simp
    rw [hshape]
    have hpre : (p :: pt).isPrefixOf (p :: (pt ++ rest)) = true := by
      have h := isPrefixOf_append_self (p :: pt) rest
      simp only [List.cons_append] at h
      exact h
    rw [rustSplit_pos (p :: pt) p (pt ++ rest) hpre (by simp)]
    have hdrop : ((p :: (pt ++ rest)).drop (p :: pt).length) = rest := by
      have h := List.drop_left (p :: pt) rest
      simp only [List.cons_append] at h
      exact h
    rw [hdrop]
  | cons ch a' ih =>
    intro rest hm
    simp only [hasMatch, Bool.or_eq_false_iff] at hm
    have hshape : ((ch :: a') ++ (p :: pt) ++ rest) = ch :: (a' ++ (p :: pt) ++ rest) := by
      simp
    rw [hshape]
    have hpre : (p :: pt).isPrefixOf (ch :: (a' ++ (p :: pt) ++ rest)) = false := by
      by_contra hcontra
      have htrue : (p :: pt).isPrefixOf (ch :: (a' ++ (p :: pt) ++ rest)) = true := by
        revert hcontra
        cases h : (p :: pt).isPrefixOf (ch :: (a' ++ (p :: pt) ++ rest)) <;> simp
      have hmid : (p :: pt).isPrefixOf ((ch :: a') ++ (p :: pt) ++ rest) = true := by
        rw [hshape]; exact htrue
      have := isPrefixOf_straddle p pt hp ch a' rest hmid
      rw [hm.1] at this
      exact Bool.false_ne_true this
    have hcond : ((p :: pt).isPrefixOf (ch :: (a' ++ (p :: pt) ++ rest))
        && !(p :: pt).isEmpty) = false := by
      rw [hpre]; rfl
    exact rustSplit_neg (p :: pt) ch (a' ++ (p :: pt) ++ rest) hcond a'
      (rustSplit (p :: pt) rest) (ih rest hm.2)

theorem rustSplit_no_match (pat : Str) (_hne : pat ≠ []) :
    ∀ text, hasMatch pat text = false → rustSplit pat text = [text] := by
  intro text
  induction text with
  | nil => intro _; rfl
  | cons c rest ih =>
    intro hm
    simp only [hasMatch, Bool.or_eq_false_iff] at hm
    have hcond : (pat.isPrefixOf (c :: rest) && !pat.isEmpty) = false := by
      rw [hm.1]; rfl
    exact rustSplit_neg pat c rest hcond rest [] (ih hm.2)

/-! ### Claims about the local-socket frame handling -/

/-- Claim C9: for every received frame whose UTF-8 text contains the marker
more than once (here exhibited through the canonical decomposition
`a ++ "<?xml" ++ b ++ "<?xml" ++ c` with `a` and `b` marker-free), only the
text strictly between the first and second occurrences, with the marker
re-prepended, is appended to the accumulated response; everything from the
second occurrence onward (`"<?xml" ++ c`) is silently dropped. -/
theorem claim_C9_second_marker_truncation (resp a b c : Str)
    (ha : hasMatch xmlMarker a = false) (hb : hasMatch xmlMarker b = false) :
    processFrame resp (a ++ xmlMarker ++ b ++ xmlMarker ++ c) =
      some (resp ++ (xmlMarker ++ b)) := by
  have hp : '<' ∉ ("?xml".data) := by decide
  have hmark : xmlMarker = '<' :: ("?xml".data) := rfl
  have hsplit : rustSplit xmlMarker (a ++ xmlMarker ++ b ++ xmlMarker ++ c) =
      a :: b :: rustSplit xmlMarker c := by
    rw [hmark] at ha hb ⊢
    have hassoc : (a ++ ('<' :: ("?xml".data)) ++ b ++ ('<' :: ("?xml".data)) ++ c) =
        (a ++ ('<' :: ("?xml".data)) ++ (b ++ ('<' :: ("?xml".data)) ++ c)) := by
      simp [List.append_assoc]
    rw [hassoc,
      rustSplit_skip_clean '<' ("?xml".data) hp a (b ++ ('<' :: ("?xml".data)) ++ c) ha,
      rustSplit_skip_clean '<' ("?xml".data) hp b c hb]
  unfold processFrame
  rw [hsplit]
  simp

theorem claim_C9_witness :
    hasMatch xmlMarker ("pre".data) = false ∧ hasMatch xmlMarker ("doc".data) = false ∧
    processFrame ("R".data)
        (("pre".data) ++ xmlMarker ++ ("doc".data) ++ xmlMarker ++ ("tail".data)) =
      some (("R".data) ++ (xmlMarker ++ ("doc".data))) :=
  ⟨by decide, by decide,
    claim_C9_second_marker_truncation ("R".data) ("pre".data) ("doc".data) ("tail".data)
      (by decide) (by decide)⟩

/-- Claim C4 (code bug): a received frame whose text contains no `<?xml`
marker does not leave the accumulated response unchanged, contrary to the
claim: the split produces a single piece, the index `[1]` is out of bounds
and the task panics, aborting the exchange before the following empty frame
could end it. -/
theorem claim_C4_markerless_frame_panics :
    processFrame ("acc".data) ("garbage".data) = none ∧
    scgiLoop ("acc".data) [ScgiEvent.frameText ("garbage".data), ScgiEvent.frameEmpty] =
      SendOutcome.panicked :=
  ⟨rfl, rfl⟩

/-- Claim C3 (code bug): a call is not guaranteed to yield one of the four
caller-visible outcomes: on the unix scheme, a peer frame without the `<?xml`
marker makes the call panic. -/
theorem claim_C3_unix_frame_panic : call envPanic = CallOutcome.panicked := rfl

/-- The loop keeps spinning on an exhausted stream (every further poll yields
nothing). -/
theorem scgiLoop_replicate_pollNone (resp : Str) (n : Nat) :
    scgiLoop resp (List.replicate n ScgiEvent.pollNone) = SendOutcome.pending resp := by
  induction n with
  | zero => rfl
  | succ k ih => simpa [List.replicate, scgiLoop] using ih

/-- Claim C10: the frame loop returns successfully only upon a zero-length
frame; it returns an error only when a poll yields an error (whose message is
then wrapped); and whenever a finite event prefix leaves it still looping, any
number of further empty polls (an exhausted stream) leaves it looping, so the
call never terminates. -/
theorem claim_C10_loop_termination :
    (∀ (resp : Str) (evs : List ScgiEvent) (r : Str),
        scgiLoop resp evs = SendOutcome.ok r → ScgiEvent.frameEmpty ∈ evs) ∧
    (∀ (resp : Str) (evs : List ScgiEvent) (m : Str),
        scgiLoop resp evs = SendOutcome.err m →
          ∃ m0, ScgiEvent.pollErr m0 ∈ evs ∧ m = errWaitMsg m0) ∧
    (∀ (resp : Str) (evs : List ScgiEvent) (r : Str) (n : Nat),
        scgiLoop resp evs = SendOutcome.pending r →
          scgiLoop resp (evs ++ List.replicate n ScgiEvent.pollNone) =
            SendOutcome.pending r) := by
  refine ⟨?_, ?_, ?_⟩
  · intro resp evs
    induction evs generalizing resp with
    | nil => intro r h; simp [scgiLoop] at h
    | cons e rest ih =>
      intro r h
      cases e with
      | pollNone =>
        simp only [scgiLoop] at h
        exact List.mem_cons_of_mem _ (ih resp r h)
      | pollErr m => simp [scgiLoop] at h
      | frameEmpty => exact List.mem_cons_self _ _
      | frameSkip =>
        simp only [scgiLoop] at h
        exact List.mem_cons_of_mem _ (ih resp r h)
      | frameText t =>
        simp only [scgiLoop] at h
        cases hp : processFrame resp t with
        | none => rw [hp] at h; simp at h
        | some resp2 =>
          rw [hp] at h
          exact List.mem_cons_of_mem _ (ih resp2 r h)
  · intro resp evs
    induction evs generalizing resp with
    | nil => intro m h; simp [scgiLoop] at h
    | cons e rest ih =>
      intro m h
      cases e with
      | pollNone =>
        simp only [scgiLoop] at h
        obtain ⟨m0, hmem, hval⟩ := ih resp m h
        exact ⟨m0, List.mem_cons_of_mem _ hmem, hval⟩
      | pollErr m1 =>
        simp only [scgiLoop] at h
        refine ⟨m1, List.mem_cons_self _ _, ?_⟩
        cases h
        rfl
      | frameEmpty => simp [scgiLoop] at h
      | frameSkip =>
        simp only [scgiLoop] at h
        obtain ⟨m0, hmem, hval⟩ := ih resp m h
        exact ⟨m0, List.mem_cons_of_mem _ hmem, hval⟩
      | frameText t =>
        simp only [scgiLoop] at h
        cases hp : processFrame resp t with
        | none => rw [hp] at h; simp at h
        | some resp2 =>
          rw [hp] at h
          obtain ⟨m0, hmem, hval⟩ := ih resp2 m h
          exact ⟨m0, List.mem_cons_of_mem _ hmem, hval⟩
  · intro resp evs
    induction evs generalizing resp with
    | nil =>
      intro r n h
      simp only [scgiLoop] at h
      cases h
      simpa using scgiLoop_replicate_pollNone resp n
    | cons e rest ih =>
      intro r n h
      cases e with
      | pollNone =>
        simp only [scgiLoop] at h
        simpa [scgiLoop] using ih resp r n h
      | pollErr m1 => simp [scgiLoop] at h
      | frameEmpty => simp [scgiLoop] at h
      | frameSkip =>
        simp only [scgiLoop] at h
        simpa [scgiLoop] using ih resp r n h
      | frameText t =>
        simp only [scgiLoop] at h
        cases hp : processFrame resp t with
        | none => rw [hp] at h; simp at h
        | some resp2 =>
          rw [hp] at h
          have := ih resp2 r n h
          simp only [List.cons_append, scgiLoop, hp]
          exact this

theorem claim_C10_witness :
    (ScgiEvent.frameEmpty ∈ [ScgiEvent.frameEmpty]) ∧
    (∃ m0, ScgiEvent.pollErr m0 ∈ [ScgiEvent.pollErr ("boom".data)] ∧
      errWaitMsg ("boom".data) = errWaitMsg m0) ∧
    scgiLoop [] ([ScgiEvent.pollNone] ++ List.replicate 2 ScgiEvent.pollNone) =
      SendOutcome.pending [] :=
  ⟨claim_C10_loop_termination.1 [] [ScgiEvent.frameEmpty] [] rfl,
   claim_C10_loop_termination.2.1 [] [ScgiEvent.pollErr ("boom".data)]
     (errWaitMsg ("boom".data)) rfl,
   claim_C10_loop_termination.2.2 [] [ScgiEvent.pollNone] [] 2 rfl⟩

/-! ### Claims about response resolution and the call pipeline -/

/-- Claim C1: resolution first attempts the fault parse; on success the result
is the contained Fault or its decode error (`faultBranch`) and is independent
of the response parser, so the MethodResponse parse is never attempted; only
when the fault parse fails is the response parse consulted, returning its
value on success; when both fail the result is one invalid-data error
carrying the original text verbatim. -/
theorem claim_C1_fault_first_resolution (cod : Codec) (contents : Str) :
    (∀ fr, cod.parseFault contents = Except.ok fr →
        response_to_result cod contents = faultBranch fr ∧
        ∀ cod2 : Codec, cod2.parseFault = cod.parseFault →
          response_to_result cod2 contents = response_to_result cod contents) ∧
    (∀ e2 resp, cod.parseFault contents = Except.error e2 →
        cod.parseResponse contents = Except.ok resp →
        response_to_result cod contents = Except.ok resp) ∧
    (∀ e2 e1, cod.parseFault contents = Except.error e2 →
        cod.parseResponse contents = Except.error e1 →
        response_to_result cod contents =
          Except.error (ClientError.rpc (DxrError.invalidData contents))) := by
  refine ⟨?_, ?_, ?_⟩
  · intro fr hf
    constructor
    · simp [response_to_result, hf]
    · intro cod2 heq
      simp [response_to_result, hf, heq]
  · intro e2 resp hf hr
    simp [response_to_result, hf, hr]
  · intro e2 e1 hf hr
    simp [response_to_result, hf, hr]

theorem claim_C1_witness :
    response_to_result codecFaultOk ("x".data) =
      Except.error (ClientError.fault ⟨1, ("bad".data)⟩) ∧
    response_to_result codecRespOk ("x".data) = Except.ok ⟨Value.i4 5⟩ ∧
    response_to_result codecNone ("x".data) =
      Except.error (ClientError.rpc (DxrError.invalidData ("x".data))) := by
  refine ⟨?_, ?_, ?_⟩
  · have h := ((claim_C1_fault_first_resolution codecFaultOk ("x".data)).1
      ⟨Value.struct [(faultCodeKey, Value.i4 1),
        (faultStringKey, Value.string ("bad".data))]⟩ rfl).1
    rw [h]
    rfl
  · exact (claim_C1_fault_first_resolution codecRespOk ("x".data)).2.1
      (DxrError.invalidData ("x".data)) ⟨Value.i4 5⟩ rfl rfl
  · exact (claim_C1_fault_first_resolution codecNone ("x".data)).2.2
      (DxrError.invalidData ("x".data)) (DxrError.invalidData ("x".data)) rfl rfl

/-- Claim C2, counterexample: on the unix scheme a connection failure is
returned as a Fault error, not a Net error, contradicting the claim that a
transport failure is never surfaced as a Fault. -/
theorem claim_C2_counterexample :
    call envConnRefused = CallOutcome.fault ⟨1, connectFailMsg⟩ ∧
    (call envConnRefused).isNet = false :=
  ⟨rfl, rfl⟩

/-- Claim C2 as amended: on any non-unix scheme a transport failure while
building or sending the request is returned as a Net error wrapping the
underlying cause; but on the unix scheme a failure to connect to the local
socket is returned as the fixed Fault error with code 1 and message
"Failed to connect to rtorrent socket", not as a Net error. -/
theorem claim_C2_amended_transport_errors {R : Type} (env : CallEnv R) (body : Str)
    (hser : env.serialized = Except.ok body) :
    (∀ e, env.scheme ≠ unixScheme → env.httpResult = Except.error e →
        call env = CallOutcome.net e) ∧
    (∀ m, env.scheme = unixScheme → env.connect = Except.error m →
        call env = CallOutcome.fault ⟨1, connectFailMsg⟩ ∧
        (call env).isNet = false) := by
  constructor
  · intro e hscheme hhttp
    simp [call, hser, hscheme, hhttp]
  · intro m hscheme hconn
    have hcall : call env = CallOutcome.fault ⟨1, connectFailMsg⟩ := by
      simp [call, hser, hscheme, send_scgi_request, hconn]
    exact ⟨hcall, by rw [hcall]; rfl⟩

theorem claim_C2_witness :
    call envHttpFail = CallOutcome.net ("dns failure".data) ∧
    (call envConnRefused = CallOutcome.fault ⟨1, connectFailMsg⟩ ∧
      (call envConnRefused).isNet = false) :=
  ⟨(claim_C2_amended_transport_errors envHttpFail ("body".data) rfl).1
      ("dns failure".data) (by decide) rfl,
   (claim_C2_amended_transport_errors envConnRefused ("body".data) rfl).2
      ("connection refused".data) rfl rfl⟩

/-! ### Claims about the multicall decoder -/

/-- Claim C5, counterexample: an element that parses as a struct but exposes
neither required member is not skipped; the whole decode aborts with a
missing-field error instead of succeeding with that element dropped. -/
theorem claim_C5_counterexample :
    multicall [Value.struct [(("foo".data), Value.i4 1)]] =
      Except.error (ClientError.rpc (DxrError.missingField faultTypeName faultCodeKey)) ∧
    multicall [Value.struct [(("foo".data), Value.i4 1)]] ≠ Except.ok [] := by
  constructor
  · rfl
  · intro h
    rw [show multicall [Value.struct [(("foo".data), Value.i4 1)]] =
        Except.error (ClientError.rpc (DxrError.missingField faultTypeName faultCodeKey))
      from rfl] at h
    exact Except.noConfusion h

/-- Claim C5 as amended: an element that parses as neither a one-element
positional sequence nor a struct at all is skipped — no outcome is recorded,
no error is raised, and the loop continues; but an element that parses as a
struct lacking the required `faultCode` or `faultString` member aborts the
whole decode with a missing-field error. -/
theorem claim_C5_amended_skip_or_abort :
    (∀ (acc : List (Except Fault Value)) (v : Value) (rest : List Value),
        (tryFromValueSingle v).isOk = false → (tryFromValueMap v).isOk = false →
        multicallLoop acc (v :: rest) = multicallLoop acc rest) ∧
    (∀ (acc : List (Except Fault Value)) (ms : Members) (rest : List Value),
        lookupLast faultCodeKey ms = none →
        multicallLoop acc (Value.struct ms :: rest) =
          Except.error (ClientError.rpc (DxrError.missingField faultTypeName faultCodeKey))) ∧
    (∀ (acc : List (Except Fault Value)) (ms : Members) (rest : List Value) (code : Value),
        lookupLast faultCodeKey ms = some code →
        lookupLast faultStringKey ms = none →
        multicallLoop acc (Value.struct ms :: rest) =
          Except.error (ClientError.rpc (DxrError.missingField faultTypeName faultStringKey))) := by
  refine ⟨?_, ?_, ?_⟩
  · intro acc v rest h1 h2
    cases hs : tryFromValueSingle v with
    | ok w => rw [hs] at h1; simp [Except.isOk, Except.toBool] at h1
    | error e1 =>
      cases hm : tryFromValueMap v with
      | ok ms => rw [hm] at h2; simp [Except.isOk, Except.toBool] at h2
      | error e2 =>
        simp [multicallLoop, multicallStep, hs, hm]
  · intro acc ms rest hnone
    simp [multicallLoop, multicallStep, tryFromValueSingle, tryFromValueMap, hnone]
  · intro acc ms rest code hcode hnone
    simp [multicallLoop, multicallStep, tryFromValueSingle, tryFromValueMap, hcode, hnone]

theorem claim_C5_witness :
    multicallLoop [] [Value.i4 9] = multicallLoop [] [] ∧
    multicallLoop [] [Value.struct [(("foo".data), Value.i4 1)], Value.i4 9] =
      Except.error (ClientError.rpc (DxrError.missingField faultTypeName faultCodeKey)) ∧
    multicallLoop [] [Value.struct [(faultCodeKey, Value.i4 1)]] =
      Except.error (ClientError.rpc (DxrError.missingField faultTypeName faultStringKey)) :=
  ⟨claim_C5_amended_skip_or_abort.1 [] (Value.i4 9) [] rfl rfl,
   claim_C5_amended_skip_or_abort.2.1 [] [(("foo".data), Value.i4 1)] [Value.i4 9] rfl,
   claim_C5_amended_skip_or_abort.2.2 [] [(faultCodeKey, Value.i4 1)] [] (Value.i4 1) rfl rfl⟩

/-- The multicall loop maps a well-shaped element list to its outcome list,
appended to the accumulator. -/
theorem multicallLoop_forall2 :
    ∀ (elems : List Value) (outs : List (Except Fault Value)),
      List.Forall₂ ElemOutcome elems outs →
      ∀ acc, multicallLoop acc elems = Except.ok (acc ++ outs) := by
  intro elems outs h
  induction h with
  | nil => intro acc; simp [multicallLoop]
  | @cons a b l1 l2 h1 _h2 ih =>
    intro acc
    have hstep : multicallStep acc a = Except.ok (acc ++ [b]) := by
      cases h1 with
      | success v => simp [multicallStep, tryFromValueSingle, tryFromValueMap]
      | failure ms code msg hc hs =>
        simp [multicallStep, tryFromValueSingle, tryFromValueMap, hc, hs,
          i32TryFromValue, stringTryFromValue]
    simp only [multicallLoop, hstep]
    rw [ih (acc ++ [b])]
    simp

/-- Claim C6: the multicall decoder processes the response elements in order;
a one-element positional sequence records a success outcome with its single
value, a struct exposing integer `faultCode` and string `faultString` (other
members ignored) records a failure outcome with the corresponding Fault, and
the output sequence is aligned with the input order. -/
theorem claim_C6_multicall_order (elems : List Value) (outs : List (Except Fault Value))
    (h : List.Forall₂ ElemOutcome elems outs) :
    multicall elems = Except.ok outs := by
  have hrun := multicallLoop_forall2 elems outs h []
  simpa [multicall] using hrun

theorem claim_C6_witness :
    multicall [Value.array [Value.string ("v".data)],
        Value.struct [(faultCodeKey, Value.i4 1), (faultStringKey, Value.string ("bad".data))]] =
      Except.ok [Except.ok (Value.string ("v".data)),
        Except.error (Fault.mk 1 ("bad".data))] :=
  claim_C6_multicall_order _ _
    (List.Forall₂.cons (ElemOutcome.success _)
      (List.Forall₂.cons (ElemOutcome.failure _ 1 ("bad".data) rfl rfl) List.Forall₂.nil))

/-! ### Decimal round trip and the SCGI payload claim -/

theorem parseNatDigitsAux_append (xs ys : Str) :
    ∀ acc, parseNatDigitsAux acc (xs ++ ys) =
      match parseNatDigitsAux acc xs with
      | some a => parseNatDigitsAux a ys
      | none => none := by
  induction xs with
  | nil => intro acc; rfl
  | cons c xs' ih =>
    intro acc
    simp only [List.cons_append, parseNatDigitsAux]
    cases hd : digitVal c with
    | some d => exact ih (acc * 10 + d)
    | none => rfl

theorem digitVal_digitChar (d : Nat) (hd : d < 10) :
    digitVal (Nat.digitChar d) = some d := by
  interval_cases d <;> decide

theorem parseNatDigitsAux_ofDigits :
    ∀ (L : List Nat), (∀ d ∈ L, d < 10) →
      ∀ acc, parseNatDigitsAux acc (L.reverse.map Nat.digitChar) =
        some (acc * 10 ^ L.length + Nat.ofDigits 10 L) := by
  intro L
  induction L with
  | nil =>
    intro _ acc
    simp [parseNatDigitsAux, Nat.ofDigits_nil]
  | cons d L ih =>
    intro hL acc
    have hd : d < 10 := hL d (by simp)
    have hL2 : ∀ x ∈ L, x < 10 := fun x hx => hL x (by simp [hx])
    rw [List.reverse_cons, List.map_append, parseNatDigitsAux_append, ih hL2 acc]
    simp only [List.map_cons, List.map_nil, parseNatDigitsAux,
      digitVal_digitChar d hd]
    rw [Nat.ofDigits_cons]
    congr 1
    simp [pow_succ]
    ring

theorem parseNatDigits_natDecimal (n : Nat) : parseNatDigits (natDecimal n) = some n := by
  by_cases h0 : n = 0
  · subst h0; rfl
  · have hne : Nat.digits 10 n ≠ [] := Nat.digits_ne_nil_iff_ne_zero.mpr h0
    have hlt : ∀ d ∈ Nat.digits 10 n, d < 10 :=
      fun d hd => Nat.digits_lt_base (by norm_num) hd
    unfold natDecimal
    rw [if_neg h0]
    unfold parseNatDigits
    have hempty : ((Nat.digits 10 n).reverse.map Nat.digitChar).isEmpty = false := by
      simp [List.isEmpty_iff, hne]
    rw [hempty]
    simp only [Bool.false_eq_true, if_false]
    rw [parseNatDigitsAux_ofDigits (Nat.digits 10 n) hlt 0]
    simp [Nat.ofDigits_digits]

/-- Claim C7: the unix-branch request payload consists of, in this order, a
CONTENT_LENGTH field whose value is the decimal byte length of the serialized
XML body, the marker SCGI=1, REQUEST_METHOD=POST, the fixed request URI /RPC,
followed immediately by the raw body bytes; the CONTENT_LENGTH text really
denotes that byte length (it parses back to it). -/
theorem claim_C7_scgi_payload (xml : Str) :
    build_scgi_request (request_to_body xml) =
      { headers :=
          [ (("CONTENT_LENGTH".data), natDecimal (utf8Len (request_to_body xml))),
            (("SCGI".data), ("1".data)),
            (("REQUEST_METHOD".data), ("POST".data)),
            (("REQUEST_URI".data), ("/RPC".data)) ],
        body := request_to_body xml } ∧
    parseNatDigits (natDecimal (utf8Len (request_to_body xml))) =
      some (utf8Len (request_to_body xml)) :=
  ⟨rfl, parseNatDigits_natDecimal _⟩

/-! ### Scalar codec lemmas and the int-alias claim -/

theorem breakAtGt_of_free (tag : Str) (rest : Str) (h : '>' ∉ tag) :
    breakAtGt (tag ++ '>' :: rest) = some (tag, rest) := by
  induction tag with
  | nil => simp [breakAtGt]
  | cons c t ih =>
    have hc : ¬(c = '>') := fun e => h (by simp [e])
    have ht : '>' ∉ t := fun hx => h (by simp [hx])
    simp only [List.cons_append, breakAtGt, if_neg hc, List.append_eq, ih ht]

theorem parseTagged_wrapTag (tag inner : Str) (h : '>' ∉ tag) :
    parseTagged (wrapTag tag inner) = some (tag, inner) := by
  have hshape : wrapTag tag inner = '<' :: (tag ++ '>' :: (inner ++ closeTag tag)) := by
    simp [wrapTag, List.append_assoc]
  rw [hshape]
  have hsuf : (closeTag tag).isSuffixOf (inner ++ closeTag tag) = true := by
    rw [List.isSuffixOf_iff_suffix]
    exact List.suffix_append inner (closeTag tag)
  have htake : (inner ++ closeTag tag).take
      ((inner ++ closeTag tag).length - (closeTag tag).length) = inner := by
    rw [List.length_append, Nat.add_sub_cancel]
    exact List.take_left inner (closeTag tag)
  simp only [parseTagged, breakAtGt_of_free tag (inner ++ closeTag tag) h, hsuf,
    if_true, htake]

/-- Claim C8: decoding the int-tagged and i4-tagged forms of -12 yields the same
result, the 32-bit integer −12 (the decoder accepts `int` as an alias of
`i4`); encoding a 32-bit integer always emits the `i4` tag — the emitted
element's tag parses back as `i4`, which is not `int`. -/
theorem claim_C8_int_alias :
    decodeValue ("<int>-12</int>".data) = Except.ok (Value.i4 (-12)) ∧
    decodeValue ("<i4>-12</i4>".data) = Except.ok (Value.i4 (-12)) ∧
    decodeValue ("<int>-12</int>".data) = decodeValue ("<i4>-12</i4>".data) ∧
    (∀ n : Int, encodeValue (Value.i4 n) = wrapTag ("i4".data) (intDecimal n) ∧
      parseTagged (encodeValue (Value.i4 n)) = some (("i4".data), intDecimal n)) ∧
    ("i4".data : Str) ≠ ("int".data) := by
  refine ⟨rfl, rfl, rfl, fun n => ⟨rfl, ?_⟩, by decide⟩
  exact parseTagged_wrapTag ("i4".data) (intDecimal n) (by decide)
